import Mathlib

/-!
Verification of the RotaryEncoderDriver polling decoder
(`RotaryEncoderDriver/EncoderDriver.py`, class `Driver`).

The decoder is embedded shallowly.  Hardware reads (`gpio.input`) are the
only nondeterminism in the original program, so each run is parameterised
by the sequence of values the environment returns from those reads.  The
observable behaviour of a run is a trace of events: the raw samples taken,
the gesture callbacks dispatched (`on_right`, `on_left`, `on_press`,
`on_release`), the `time.sleep(.001)` call, and the `gpio.cleanup()`
teardown call.

`Driver.states` (the dict `{'clk': 1, 'dt': 1, 'sw': 1}`) is the record
`LineStateSet`.  Levels are Python ints, embedded as `Nat`.
-/

/-- The tracked last-known level of each input line: the dict
`self.states = {'clk': 1, 'dt': 1, 'sw': 1}` of `Driver.__init__`. -/
structure LineStateSet where
  clk : Nat
  dt : Nat
  sw : Nat
deriving DecidableEq, Repr

/-- The initial tracked state set in `Driver.__init__`: all three lines idle. -/
def initialStates : LineStateSet := ⟨1, 1, 1⟩

/-- Observable events of one run: a raw sample of the three lines
(`_get_gpio_state`), the four gesture callbacks, the `time.sleep(.001)`
call in `_wait_for_reset`, and `gpio.cleanup()`. -/
inductive Event where
  | sample (c d w : Nat)
  | right
  | left
  | press
  | release
  | sleep
  | cleanup
deriving DecidableEq, Repr

/-- `true` exactly on the four gesture-callback events. -/
def isGestureEvent : Event → Bool
  | Event.right => true
  | Event.left => true
  | Event.press => true
  | Event.release => true
  | _ => false

/-- `true` exactly on raw-sample events. -/
def isSampleEvent : Event → Bool
  | Event.sample _ _ _ => true
  | _ => false

/-- `Driver._update_state_dictionary`: each key of `self.states` is
overwritten by the sampled value only when the sampled value differs from
the recorded one. -/
def _update_state_dictionary (s : LineStateSet) (stateClk stateDt stateSw : Nat) :
    LineStateSet :=
  let s1 := if stateClk ≠ s.clk then { s with clk := stateClk } else s
  let s2 := if stateDt ≠ s1.dt then { s1 with dt := stateDt } else s1
  let s3 := if stateSw ≠ s2.sw then { s2 with sw := stateSw } else s2
  s3

/-- The rest-state test of `_wait_for_reset` line 96:
`self.states['clk'] == 1 and self.states['dt'] == 1 and self.states['sw'] == 1`
(the spec's `is_quiescent`). -/
def is_quiescent (s : LineStateSet) : Bool :=
  s.clk = 1 && s.dt = 1 && s.sw = 1

/-- `Driver._analyze_state`: three independent checks on the tracked state,
each dispatching one callback, embedded as the list of dispatched events in
program order. -/
def _analyze_state (s : LineStateSet) : List Event :=
  (if s.clk = 0 ∧ s.dt = 1 then [Event.right] else []) ++
  (if s.dt = 0 ∧ s.clk = 1 then [Event.left] else []) ++
  (if s.sw = 0 then [Event.press] else [])

/-- Modelled from the spec's words, for the refinement comparison only:
unconditional overwrite of all three recorded levels by the sampled triple. -/
def update_spec_overwrite (_s : LineStateSet) (stateClk stateDt stateSw : Nat) :
    LineStateSet :=
  ⟨stateClk, stateDt, stateSw⟩

lemma update_eq_overwrite (s : LineStateSet) (c d w : Nat) :
    _update_state_dictionary s c d w = ⟨c, d, w⟩ := by
  cases s with
  | mk a b g =>
    simp only [_update_state_dictionary, ne_eq]
    by_cases h1 : c = a <;> by_cases h2 : d = b <;> by_cases h3 : w = g <;>
      simp [h1, h2, h3]

/-- `Driver._wait_for_reset`, after the initial raw read of the `sw` pin
(`swState = gpio.input(self.sw)`, passed here as the parameter `swState`).
The environment supplies the list of `(clk, dt, sw)` triples returned by
`_get_gpio_state` on successive iterations of the `while True:` loop.
Result: the emitted events, and `some` final tracked state when the loop
reaches quiescence and breaks; `none` when the supplied samples run out
first, i.e. the loop is still running at that point (the interruption
cut-off). -/
def _wait_for_reset (swState : Nat) (s : LineStateSet) :
    List (Nat × Nat × Nat) → List Event × Option LineStateSet
  | [] => ([], none)
  | (c, d, w) :: rest =>
    let s' := _update_state_dictionary s c d w
    if is_quiescent s' then
      (Event.sample c d w :: Event.sleep ::
        (if swState = 0 then [Event.release] else []), some s')
    else
      let p := _wait_for_reset swState s' rest
      (Event.sample c d w :: p.1, p.2)

/-- The hardware reads consumed by one iteration of `Driver.run_loop`:
the `_get_gpio_state` triple of the SAMPLING pass, the raw `sw` read at
entry of `_wait_for_reset`, the triples read inside `_wait_for_reset`,
and the value of `self.kill_flag` observed at the end-of-iteration check. -/
structure CycleInput where
  sample : Nat × Nat × Nat
  swEntry : Nat
  settle : List (Nat × Nat × Nat)
  kill : Bool
deriving DecidableEq, Repr

/-- Tracked state after the SAMPLING update of one `run_loop` iteration. -/
def cycleState (s : LineStateSet) (cyc : CycleInput) : LineStateSet :=
  _update_state_dictionary s cyc.sample.1 cyc.sample.2.1 cyc.sample.2.2

/-- Events of the SAMPLING phase of one `run_loop` iteration: the raw
sample followed by the callbacks `_analyze_state` dispatches. -/
def cycleEvents (s : LineStateSet) (cyc : CycleInput) : List Event :=
  Event.sample cyc.sample.1 cyc.sample.2.1 cyc.sample.2.2 ::
    _analyze_state (cycleState s cyc)

/-- `Driver.run_loop`: `while True:` sample, update, `_analyze_state`,
`_wait_for_reset`, then `if self.kill_flag is True: break`; after the loop,
`gpio.cleanup()`.  The environment supplies one `CycleInput` per iteration.
Result `none` means the supplied inputs ran out with the loop still running
(the interruption cut-off); `some s'` means the loop broke on the kill flag,
with `s'` the tracked state at exit. -/
def run_loop (s : LineStateSet) : List CycleInput → List Event × Option LineStateSet
  | [] => ([], none)
  | cyc :: rest =>
    match _wait_for_reset cyc.swEntry (cycleState s cyc) cyc.settle with
    | (tr2, none) => (cycleEvents s cyc ++ tr2, none)
    | (tr2, some s2) =>
      if cyc.kill then (cycleEvents s cyc ++ tr2 ++ [Event.cleanup], some s2)
      else
        (cycleEvents s cyc ++ tr2 ++ (run_loop s2 rest).1, (run_loop s2 rest).2)

/-- `Driver.__exit__`: the context manager runs `gpio.cleanup()` after the
body of the `with` block, whatever trace the body produced. -/
def driver_exit (tr : List Event) : List Event := tr ++ [Event.cleanup]

/-- The shipped usage (`__main__` block): `run_loop` inside a `with` block,
`KeyboardInterrupt` caught inside the body, so `__exit__` always runs. -/
def with_block (s : LineStateSet) (cycles : List CycleInput) : List Event :=
  driver_exit (run_loop s cycles).1

/-! ### Structural lemmas about a SETTLING episode -/

lemma wait_shape (swState : Nat) :
    ∀ (smps : List (Nat × Nat × Nat)) (s : LineStateSet) (tr : List Event)
      (s' : LineStateSet),
      _wait_for_reset swState s smps = (tr, some s') →
      is_quiescent s' = true ∧
      ∃ tr0, tr = tr0 ++ Event.sleep ::
          (if swState = 0 then [Event.release] else []) ∧
        ∀ e ∈ tr0, isSampleEvent e = true := by
  intro smps
  induction smps with
  | nil =>
    intro s tr s' h
    simp [_wait_for_reset] at h
  | cons smp rest ih =>
    intro s tr s' h
    obtain ⟨c, d, w⟩ := smp
    by_cases hq : is_quiescent (_update_state_dictionary s c d w) = true
    · rw [_wait_for_reset, if_pos hq] at h
      injection h with htr hs
      injection hs with hs
      subst hs
      refine ⟨hq, ⟨[Event.sample c d w], ?_, ?_⟩⟩
      · simpa using htr.symm
      · intro e he
        simp at he
        simp [he, isSampleEvent]
    · rw [_wait_for_reset, if_neg hq] at h
      injection h with htr hs
      obtain ⟨hq', tr0, htr0, hall⟩ :=
        ih (_update_state_dictionary s c d w)
          (_wait_for_reset swState (_update_state_dictionary s c d w) rest).1 s'
          (by rw [← hs])
      refine ⟨hq', Event.sample c d w :: tr0, ?_, ?_⟩
      · rw [← htr, htr0]
        simp
      · intro e he
        rcases List.mem_cons.mp he with he | he
        · simp [he, isSampleEvent]
        · exact hall e he

lemma wait_sample_count (swState : Nat) (s : LineStateSet)
    (smps : List (Nat × Nat × Nat)) (tr : List Event) (s' : LineStateSet)
    (h : _wait_for_reset swState s smps = (tr, some s')) (e : Event)
    (hng : isSampleEvent e = false) :
    tr.count e =
      (if e = Event.sleep then 1 else 0) +
      (if swState = 0 ∧ e = Event.release then 1 else 0) := by
  obtain ⟨-, tr0, htr, hall⟩ := wait_shape swState smps s tr s' h
  have h0 : tr0.count e = 0 := by
    refine List.count_eq_zero.mpr (fun hmem => ?_)
    have := hall e hmem
    rw [this] at hng
    cases hng
  subst htr
  by_cases hsw : swState = 0 <;> by_cases hsl : e = Event.sleep <;>
    by_cases hre : e = Event.release <;>
    simp_all [List.count_append, List.count_cons]

lemma wait_no_cleanup (swState : Nat) :
    ∀ (smps : List (Nat × Nat × Nat)) (s : LineStateSet),
      ((_wait_for_reset swState s smps).1).count Event.cleanup = 0 := by
  intro smps
  induction smps with
  | nil => intro s; simp [_wait_for_reset]
  | cons smp rest ih =>
    intro s
    obtain ⟨c, d, w⟩ := smp
    by_cases hq : is_quiescent (_update_state_dictionary s c d w) = true
    · rw [_wait_for_reset, if_pos hq]
      by_cases hsw : swState = 0 <;> simp [hsw, List.count_cons]
    · rw [_wait_for_reset, if_neg hq]
      simpa [List.count_cons] using ih (_update_state_dictionary s c d w)

lemma analyze_events (s : LineStateSet) :
    ∀ e ∈ _analyze_state s,
      e = Event.right ∨ e = Event.left ∨ e = Event.press := by
  intro e he
  simp only [_analyze_state, List.mem_append] at he
  rcases he with (he | he) | he <;> split_ifs at he <;> simp_all

lemma analyze_count_cleanup (s : LineStateSet) :
    (_analyze_state s).count Event.cleanup = 0 := by
  refine List.count_eq_zero.mpr (fun hmem => ?_)
  rcases analyze_events s Event.cleanup hmem with h | h | h <;> cases h

lemma cycleEvents_count_cleanup (s : LineStateSet) (cyc : CycleInput) :
    (cycleEvents s cyc).count Event.cleanup = 0 := by
  simp [cycleEvents, List.count_cons, analyze_count_cleanup]

/-! ### Structural lemmas about the outer loop -/

lemma run_loop_cleanup_count :
    ∀ (ins : List CycleInput) (s : LineStateSet),
      (((run_loop s ins).2).isSome = true →
        ((run_loop s ins).1).count Event.cleanup = 1) ∧
      ((run_loop s ins).2 = none →
        ((run_loop s ins).1).count Event.cleanup = 0) := by
  intro ins
  induction ins with
  | nil => intro s; simp [run_loop]
  | cons cyc rest ih =>
    intro s
    rw [run_loop]
    split
    next tr2 hp =>
      have hw : tr2.count Event.cleanup = 0 := by
        have := wait_no_cleanup cyc.swEntry cyc.settle (cycleState s cyc)
        rw [hp] at this
        exact this
      constructor
      · intro hcontra
        simp at hcontra
      · intro _
        simp [List.count_append, cycleEvents_count_cleanup, hw]
    next tr2 s2 hp =>
      have hw : tr2.count Event.cleanup = 0 := by
        have := wait_no_cleanup cyc.swEntry cyc.settle (cycleState s cyc)
        rw [hp] at this
        exact this
      by_cases hk : cyc.kill
      · rw [if_pos hk]
        constructor
        · intro _
          simp [List.count_append, cycleEvents_count_cleanup, hw]
        · intro hcontra
          simp at hcontra
      · rw [if_neg hk]
        constructor
        · intro hsome
          have := (ih s2).1 hsome
          simp [List.count_append, cycleEvents_count_cleanup, hw, this]
        · intro hnone
          have := (ih s2).2 hnone
          simp [List.count_append, cycleEvents_count_cleanup, hw, this]

lemma run_loop_final_quiescent :
    ∀ (ins : List CycleInput) (s : LineStateSet) (tr : List Event)
      (s' : LineStateSet),
      run_loop s ins = (tr, some s') → is_quiescent s' = true := by
  intro ins
  induction ins with
  | nil =>
    intro s tr s' h
    simp [run_loop] at h
  | cons cyc rest ih =>
    intro s tr s' h
    rw [run_loop] at h
    split at h
    next tr2 hp =>
      injection h with _ hs
      cases hs
    next tr2 s2 hp =>
      by_cases hk : cyc.kill
      · rw [if_pos hk] at h
        injection h with _ hs
        injection hs with hs
        subst hs
        exact (wait_shape cyc.swEntry cyc.settle (cycleState s cyc) tr2 _ hp).1
      · rw [if_neg hk] at h
        injection h with _ hs
        exact ih s2 (run_loop s2 rest).1 s' (by rw [← hs])

lemma run_loop_kill_first (s : LineStateSet) (cyc : CycleInput)
    (rest : List CycleInput) (hk : cyc.kill = true) :
    run_loop s (cyc :: rest) = run_loop s [cyc] := by
  rw [run_loop]
  conv_rhs => rw [run_loop]
  split <;> simp [hk]

/-! ### Operational semantics of the loop as a relation

A big-step relation mirroring `_wait_for_reset` and `run_loop` directly
from the source: each constructor is one control path of the Python code.
Determinism of the decoder is stated over this relation. -/

/-- One SETTLING episode of `_wait_for_reset` as a big-step relation. -/
inductive WaitRel (swState : Nat) :
    LineStateSet → List (Nat × Nat × Nat) → List Event → Option LineStateSet
    → Prop where
  | exhausted (s : LineStateSet) : WaitRel swState s [] [] none
  | settled (s : LineStateSet) (c d w : Nat) (rest : List (Nat × Nat × Nat))
      (hq : is_quiescent (_update_state_dictionary s c d w) = true) :
      WaitRel swState s ((c, d, w) :: rest)
        (Event.sample c d w :: Event.sleep ::
          (if swState = 0 then [Event.release] else []))
        (some (_update_state_dictionary s c d w))
  | bouncing (s : LineStateSet) (c d w : Nat) (rest : List (Nat × Nat × Nat))
      (tr : List Event) (r : Option LineStateSet)
      (hq : is_quiescent (_update_state_dictionary s c d w) = false)
      (tail : WaitRel swState (_update_state_dictionary s c d w) rest tr r) :
      WaitRel swState s ((c, d, w) :: rest) (Event.sample c d w :: tr) r

/-- `run_loop` as a big-step relation over the per-iteration inputs. -/
inductive RunRel :
    LineStateSet → List CycleInput → List Event → Option LineStateSet → Prop where
  | exhausted (s : LineStateSet) : RunRel s [] [] none
  | interrupted (s : LineStateSet) (cyc : CycleInput) (rest : List CycleInput)
      (tr2 : List Event)
      (hw : WaitRel cyc.swEntry (cycleState s cyc) cyc.settle tr2 none) :
      RunRel s (cyc :: rest) (cycleEvents s cyc ++ tr2) none
  | killed (s : LineStateSet) (cyc : CycleInput) (rest : List CycleInput)
      (tr2 : List Event) (s2 : LineStateSet) (hk : cyc.kill = true)
      (hw : WaitRel cyc.swEntry (cycleState s cyc) cyc.settle tr2 (some s2)) :
      RunRel s (cyc :: rest) (cycleEvents s cyc ++ tr2 ++ [Event.cleanup])
        (some s2)
  | looped (s : LineStateSet) (cyc : CycleInput) (rest : List CycleInput)
      (tr2 : List Event) (s2 : LineStateSet) (tr3 : List Event)
      (r : Option LineStateSet) (hk : cyc.kill = false)
      (hw : WaitRel cyc.swEntry (cycleState s cyc) cyc.settle tr2 (some s2))
      (tail : RunRel s2 rest tr3 r) :
      RunRel s (cyc :: rest) (cycleEvents s cyc ++ tr2 ++ tr3) r

lemma WaitRel_det (swState : Nat) (s : LineStateSet)
    (smps : List (Nat × Nat × Nat)) (tr1 tr2 : List Event)
    (r1 r2 : Option LineStateSet) (h1 : WaitRel swState s smps tr1 r1)
    (h2 : WaitRel swState s smps tr2 r2) : tr1 = tr2 ∧ r1 = r2 := by
  induction h1 generalizing tr2 r2 with
  | exhausted s =>
    cases h2 with
    | exhausted => exact ⟨rfl, rfl⟩
  | settled s c d w rest hq =>
    cases h2 with
    | settled => exact ⟨rfl, rfl⟩
    | bouncing =>
      rename_i hq2 tail2
      rw [hq] at hq2
      cases hq2
  | bouncing s c d w rest tr r hq tail ih =>
    cases h2 with
    | settled =>
      rename_i hq2
      rw [hq2] at hq
      cases hq
    | bouncing =>
      rename_i tr' r' hq2 tail2
      obtain ⟨htr, hr⟩ := ih _ _ tail2
      exact ⟨by rw [htr], hr⟩

lemma WaitRel_sound (swState : Nat) :
    ∀ (smps : List (Nat × Nat × Nat)) (s : LineStateSet),
      WaitRel swState s smps (_wait_for_reset swState s smps).1
        (_wait_for_reset swState s smps).2 := by
  intro smps
  induction smps with
  | nil => intro s; exact WaitRel.exhausted s
  | cons smp rest ih =>
    intro s
    obtain ⟨c, d, w⟩ := smp
    by_cases hq : is_quiescent (_update_state_dictionary s c d w) = true
    · rw [_wait_for_reset, if_pos hq]
      exact WaitRel.settled s c d w rest hq
    · rw [_wait_for_reset, if_neg hq]
      exact WaitRel.bouncing s c d w rest _ _ (by simpa using hq)
        (ih (_update_state_dictionary s c d w))

lemma RunRel_det (s : LineStateSet) (ins : List CycleInput)
    (tr1 tr2 : List Event) (r1 r2 : Option LineStateSet)
    (h1 : RunRel s ins tr1 r1) (h2 : RunRel s ins tr2 r2) :
    tr1 = tr2 ∧ r1 = r2 := by
  induction h1 generalizing tr2 r2 with
  | exhausted s =>
    cases h2 with
    | exhausted => exact ⟨rfl, rfl⟩
  | interrupted s cyc rest t2 hw =>
    cases h2 with
    | interrupted =>
      rename_i t2' hw'
      obtain ⟨htr, -⟩ := WaitRel_det _ _ _ _ _ _ _ hw hw'
      exact ⟨by rw [htr], rfl⟩
    | killed =>
      rename_i t2' s2' hk' hw'
      obtain ⟨-, hr⟩ := WaitRel_det _ _ _ _ _ _ _ hw hw'
      cases hr
    | looped =>
      rename_i t2' s2' tr3' r' hk' hw' tail'
      obtain ⟨-, hr⟩ := WaitRel_det _ _ _ _ _ _ _ hw hw'
      cases hr
  | killed s cyc rest t2 s2 hk hw =>
    cases h2 with
    | interrupted =>
      rename_i t2' hw'
      obtain ⟨-, hr⟩ := WaitRel_det _ _ _ _ _ _ _ hw hw'
      cases hr
    | killed =>
      rename_i t2' s2' hk' hw'
      obtain ⟨htr, hr⟩ := WaitRel_det _ _ _ _ _ _ _ hw hw'
      injection hr with hr
      exact ⟨by rw [htr], by rw [hr]⟩
    | looped =>
      rename_i t2' s2' tr3' r' hk' hw' tail'
      rw [hk] at hk'
      cases hk'
  | looped s cyc rest t2 s2 tr3 r hk hw tail ih =>
    cases h2 with
    | interrupted =>
      rename_i t2' hw'
      obtain ⟨-, hr⟩ := WaitRel_det _ _ _ _ _ _ _ hw hw'
      cases hr
    | killed =>
      rename_i t2' s2' hk' hw'
      rw [hk'] at hk
      cases hk
    | looped =>
      rename_i t2' s2' tr3' r' hk' hw' tail'
      obtain ⟨htr2, hr2⟩ := WaitRel_det _ _ _ _ _ _ _ hw hw'
      injection hr2 with hs2
      subst hs2
      obtain ⟨htr3, hr3⟩ := ih _ _ tail'
      exact ⟨by rw [htr2, htr3], hr3⟩

lemma RunRel_sound :
    ∀ (ins : List CycleInput) (s : LineStateSet),
      RunRel s ins (run_loop s ins).1 (run_loop s ins).2 := by
  intro ins
  induction ins with
  | nil => intro s; exact RunRel.exhausted s
  | cons cyc rest ih =>
    intro s
    have hw := WaitRel_sound cyc.swEntry cyc.settle (cycleState s cyc)
    rw [run_loop]
    split
    next tr2 hp =>
      rw [hp] at hw
      exact RunRel.interrupted s cyc rest tr2 hw
    next tr2 s2 hp =>
      rw [hp] at hw
      by_cases hk : cyc.kill
      · rw [if_pos hk]
        exact RunRel.killed s cyc rest tr2 s2 hk hw
      · rw [if_neg hk]
        exact RunRel.looped s cyc rest tr2 s2 (run_loop s2 rest).1
          (run_loop s2 rest).2 (by simpa using hk) hw (ih s2)

/-! ### Claims -/

/-- C1, counterexample: with the kill flag already set before the SAMPLING
pass begins (`kill = true` in the single cycle input) and the sample
`(0, 1, 1)`, `run_loop` still dispatches the `on_right` gesture of that
cycle before observing the flag and stopping — the claim's "without
dispatching any further gesture callbacks" is false. -/
theorem C1_counterexample :
    (CycleInput.mk (0, 1, 1) 1 [(1, 1, 1)] true).kill = true ∧
    (run_loop ⟨1, 1, 1⟩ [CycleInput.mk (0, 1, 1) 1 [(1, 1, 1)] true]).1 =
      [Event.sample 0 1 1, Event.right, Event.sample 1 1 1, Event.sleep,
        Event.cleanup] ∧
    ¬ ((run_loop ⟨1, 1, 1⟩ [CycleInput.mk (0, 1, 1) 1 [(1, 1, 1)] true]).1.countP
        (fun e => isGestureEvent e) = 0) := by
  decide

/-- C1, amended: if the kill flag is set when a SAMPLING phase begins (so it
is still set at the end-of-cycle check), `run_loop` completes exactly that
one SAMPLING→SETTLING cycle — possibly dispatching the gestures warranted by
that cycle's samples — consumes no later cycle inputs, and on stopping has
performed teardown (`gpio.cleanup`) exactly once. -/
theorem C1_kill_before_sampling (s : LineStateSet) (cyc : CycleInput)
    (rest : List CycleInput) (hk : cyc.kill = true) :
    run_loop s (cyc :: rest) = run_loop s [cyc] ∧
    ∀ tr s', run_loop s (cyc :: rest) = (tr, some s') →
      tr.count Event.cleanup = 1 := by
  refine ⟨run_loop_kill_first s cyc rest hk, ?_⟩
  intro tr s' h
  have hc := (run_loop_cleanup_count (cyc :: rest) s).1
  rw [h] at hc
  exact hc rfl

/-- Witness for C1: a concrete killed first cycle; the second cycle input is
ignored and the final trace contains one cleanup. -/
theorem C1_witness :
    run_loop ⟨1, 1, 1⟩ [CycleInput.mk (1, 1, 1) 1 [(1, 1, 1)] true,
        CycleInput.mk (0, 1, 1) 1 [(1, 1, 1)] false] =
      run_loop ⟨1, 1, 1⟩ [CycleInput.mk (1, 1, 1) 1 [(1, 1, 1)] true] ∧
    [Event.sample 1 1 1, Event.sample 1 1 1, Event.sleep,
        Event.cleanup].count Event.cleanup = 1 :=
  ⟨(C1_kill_before_sampling ⟨1, 1, 1⟩ (CycleInput.mk (1, 1, 1) 1 [(1, 1, 1)] true)
      [CycleInput.mk (0, 1, 1) 1 [(1, 1, 1)] false] rfl).1,
   (C1_kill_before_sampling ⟨1, 1, 1⟩ (CycleInput.mk (1, 1, 1) 1 [(1, 1, 1)] true)
      [CycleInput.mk (0, 1, 1) 1 [(1, 1, 1)] false] rfl).2
     [Event.sample 1 1 1, Event.sample 1 1 1, Event.sleep, Event.cleanup]
     ⟨1, 1, 1⟩ (by decide)⟩

/-- C2, counterexample: in the shipped context-manager usage, a normal
(kill-flag) exit performs `gpio.cleanup` twice — once at the end of
`run_loop` and once more in `__exit__` — so "exactly once, never twice"
is false. -/
theorem C2_counterexample :
    (with_block ⟨1, 1, 1⟩ [CycleInput.mk (1, 1, 1) 1 [(1, 1, 1)] true]).count
        Event.cleanup = 2 ∧
    ¬ ((with_block ⟨1, 1, 1⟩ [CycleInput.mk (1, 1, 1) 1 [(1, 1, 1)] true]).count
        Event.cleanup = 1) := by
  decide

/-- C2, amended: `run_loop` itself performs cleanup exactly once when it
exits normally on the kill flag and zero times when it is cut off
(interrupted) before exiting; `__exit__` then performs exactly one further
cleanup, so the `with`-block trace always has one more cleanup than the
`run_loop` trace. -/
theorem C2_cleanup_exactly (s : LineStateSet) (ins : List CycleInput) :
    (((run_loop s ins).2).isSome = true →
      ((run_loop s ins).1).count Event.cleanup = 1) ∧
    ((run_loop s ins).2 = none →
      ((run_loop s ins).1).count Event.cleanup = 0) ∧
    (with_block s ins).count Event.cleanup =
      ((run_loop s ins).1).count Event.cleanup + 1 := by
  refine ⟨(run_loop_cleanup_count ins s).1, (run_loop_cleanup_count ins s).2, ?_⟩
  simp [with_block, driver_exit, List.count_append]

/-- Witness for C2 at a concrete normally-exiting run. -/
theorem C2_witness :
    ((run_loop ⟨1, 1, 1⟩ [CycleInput.mk (1, 1, 1) 1 [(1, 1, 1)] true]).1).count
        Event.cleanup = 1 ∧
    (with_block ⟨1, 1, 1⟩ [CycleInput.mk (1, 1, 1) 1 [(1, 1, 1)] true]).count
        Event.cleanup =
      ((run_loop ⟨1, 1, 1⟩ [CycleInput.mk (1, 1, 1) 1 [(1, 1, 1)] true]).1).count
        Event.cleanup + 1 :=
  ⟨(C2_cleanup_exactly ⟨1, 1, 1⟩ [CycleInput.mk (1, 1, 1) 1 [(1, 1, 1)] true]).1
      (by decide),
   (C2_cleanup_exactly ⟨1, 1, 1⟩ [CycleInput.mk (1, 1, 1) 1 [(1, 1, 1)] true]).2.2⟩

/-- C3: `_analyze_state` dispatches `on_right` exactly once iff Clock=0 and
Data=1, `on_left` exactly once iff Data=0 and Clock=1, `on_press` exactly
once iff Switch=0, each check independent of the others; in particular
(clk, dt) at (0,0) or (1,1) makes both rotation counts 0. -/
theorem C3_analyze_classification (s : LineStateSet) :
    (_analyze_state s).count Event.right =
      (if s.clk = 0 ∧ s.dt = 1 then 1 else 0) ∧
    (_analyze_state s).count Event.left =
      (if s.dt = 0 ∧ s.clk = 1 then 1 else 0) ∧
    (_analyze_state s).count Event.press = (if s.sw = 0 then 1 else 0) := by
  refine ⟨?_, ?_, ?_⟩ <;>
  · simp only [_analyze_state]
    split_ifs <;> simp_all [List.count_append, List.count_cons]

/-- C4: a SETTLING episode that terminates dispatches `on_release` exactly
once when the raw Switch level read at entry was 0 and never otherwise;
when dispatched, Release is the last event of the episode, after the
tracked state has become quiescent. -/
theorem C4_release_pairing (swState : Nat) (s : LineStateSet)
    (smps : List (Nat × Nat × Nat)) (tr : List Event) (s' : LineStateSet)
    (h : _wait_for_reset swState s smps = (tr, some s')) :
    tr.count Event.release = (if swState = 0 then 1 else 0) ∧
    (swState = 0 → tr.getLast? = some Event.release) ∧
    is_quiescent s' = true := by
  obtain ⟨hq, tr0, htr, hall⟩ := wait_shape swState smps s tr s' h
  have hcount := wait_sample_count swState s smps tr s' h Event.release rfl
  refine ⟨?_, ?_, hq⟩
  · rw [hcount]
    by_cases hsw : swState = 0 <;> simp [hsw]
  · intro hsw
    subst htr
    rw [if_pos hsw, List.append_cons]
    exact List.getLast?_concat _

/-- Witness for C4: concrete armed episode (entry Switch level 0). -/
theorem C4_witness :
    ([Event.sample 1 1 1, Event.sleep, Event.release].count Event.release =
      if (0 : Nat) = 0 then 1 else 0) ∧
    ((0 : Nat) = 0 → [Event.sample 1 1 1, Event.sleep,
        Event.release].getLast? = some Event.release) ∧
    is_quiescent ⟨1, 1, 1⟩ = true :=
  C4_release_pairing 0 ⟨1, 1, 1⟩ [(1, 1, 1)]
    [Event.sample 1 1 1, Event.sleep, Event.release] ⟨1, 1, 1⟩ (by decide)

/-- C5, counterexample: a SETTLING episode over the samples
`[(0,1,1), (1,1,1)]` re-samples twice but sleeps only once, and its first
event is a re-sample, not a sleep — the code samples first and sleeps only
once quiescence is detected, so "a sleep occurs before every re-sample" is
false. -/
theorem C5_counterexample :
    (_wait_for_reset 1 ⟨1, 1, 1⟩ [(0, 1, 1), (1, 1, 1)]).1 =
      [Event.sample 0 1 1, Event.sample 1 1 1, Event.sleep] ∧
    ¬ ((_wait_for_reset 1 ⟨1, 1, 1⟩ [(0, 1, 1), (1, 1, 1)]).1.head? =
        some Event.sleep) ∧
    (_wait_for_reset 1 ⟨1, 1, 1⟩ [(0, 1, 1), (1, 1, 1)]).1.countP
        (fun e => isSampleEvent e) = 2 ∧
    (_wait_for_reset 1 ⟨1, 1, 1⟩ [(0, 1, 1), (1, 1, 1)]).1.count
        Event.sleep = 1 := by
  decide

/-- C5, amended: each SETTLING iteration first re-samples and updates the
tracked state; a terminating episode's trace is some re-samples followed by
exactly one ~1ms sleep — emitted only once quiescence is detected — and
then the optional Release. -/
theorem C5_settle_order (swState : Nat) (s : LineStateSet)
    (smps : List (Nat × Nat × Nat)) (tr : List Event) (s' : LineStateSet)
    (h : _wait_for_reset swState s smps = (tr, some s')) :
    tr.count Event.sleep = 1 ∧
    ∃ tr0, tr = tr0 ++ Event.sleep ::
        (if swState = 0 then [Event.release] else []) ∧
      ∀ e ∈ tr0, isSampleEvent e = true := by
  obtain ⟨-, tr0, htr, hall⟩ := wait_shape swState smps s tr s' h
  refine ⟨?_, tr0, htr, hall⟩
  have hcount := wait_sample_count swState s smps tr s' h Event.sleep rfl
  rw [hcount]
  by_cases hsw : swState = 0 <;> simp [hsw]

/-- Witness for C5 at a concrete one-iteration episode. -/
theorem C5_witness :
    ([Event.sample 1 1 1, Event.sleep] : List Event).count Event.sleep = 1 ∧
    ∃ tr0, ([Event.sample 1 1 1, Event.sleep] : List Event) =
        tr0 ++ Event.sleep :: (if (1 : Nat) = 0 then [Event.release] else []) ∧
      ∀ e ∈ tr0, isSampleEvent e = true :=
  C5_settle_order 1 ⟨1, 1, 1⟩ [(1, 1, 1)]
    [Event.sample 1 1 1, Event.sleep] ⟨1, 1, 1⟩ (by decide)

/-- C6: the decoder is deterministic — any two big-step runs of the loop
over the same per-iteration inputs from the same initial tracked state
produce the same event trace and final state, and that trace is exactly the
one computed by the functional embedding `run_loop`. -/
theorem C6_deterministic (s : LineStateSet) (ins : List CycleInput)
    (tr1 tr2 : List Event) (r1 r2 : Option LineStateSet)
    (h1 : RunRel s ins tr1 r1) (h2 : RunRel s ins tr2 r2) :
    tr1 = tr2 ∧ r1 = r2 ∧ tr1 = (run_loop s ins).1 ∧ r1 = (run_loop s ins).2 := by
  obtain ⟨htr, hr⟩ := RunRel_det s ins tr1 tr2 r1 r2 h1 h2
  obtain ⟨htr', hr'⟩ := RunRel_det s ins tr1 _ r1 _ h1 (RunRel_sound ins s)
  exact ⟨htr, hr, htr', hr'⟩

/-- Witness for C6 at the empty input sequence. -/
theorem C6_witness :
    ([] : List Event) = [] ∧ (none : Option LineStateSet) = none ∧
      ([] : List Event) = (run_loop ⟨1, 1, 1⟩ []).1 ∧
      (none : Option LineStateSet) = (run_loop ⟨1, 1, 1⟩ []).2 :=
  C6_deterministic ⟨1, 1, 1⟩ [] [] [] none none (RunRel.exhausted ⟨1, 1, 1⟩)
    (RunRel.exhausted ⟨1, 1, 1⟩)

/-- C7: the conditional per-key update of `_update_state_dictionary` is
extensionally the unconditional overwrite of all three recorded levels by
the sampled triple. -/
theorem C7_update_eq_unconditional_overwrite (s : LineStateSet)
    (stateClk stateDt stateSw : Nat) :
    _update_state_dictionary s stateClk stateDt stateSw =
      update_spec_overwrite s stateClk stateDt stateSw :=
  update_eq_overwrite s stateClk stateDt stateSw

/-- C8: `_update_state_dictionary` is idempotent in the sampled triple. -/
theorem C8_update_idempotent (s : LineStateSet) (c d w : Nat) :
    _update_state_dictionary (_update_state_dictionary s c d w) c d w =
      _update_state_dictionary s c d w := by
  rw [update_eq_overwrite, update_eq_overwrite]

/-- C9: whenever a SETTLING episode returns (and hence whenever the loop
stops), the tracked state is quiescent — all three recorded levels are 1 —
so every SAMPLING pass after the first starts from the all-idle state. -/
theorem C9_settle_exits_quiescent :
    (∀ (swState : Nat) (s : LineStateSet) (smps : List (Nat × Nat × Nat))
        (tr : List Event) (s' : LineStateSet),
        _wait_for_reset swState s smps = (tr, some s') →
        is_quiescent s' = true) ∧
    (∀ (s : LineStateSet) (ins : List CycleInput) (tr : List Event)
        (s' : LineStateSet),
        run_loop s ins = (tr, some s') → is_quiescent s' = true) :=
  ⟨fun swState smps s tr s' h => (wait_shape swState s smps tr s' h).1,
   fun s ins tr s' h => run_loop_final_quiescent ins s tr s' h⟩

/-- Witness for C9 at a concrete episode. -/
theorem C9_witness : is_quiescent ⟨1, 1, 1⟩ = true :=
  C9_settle_exits_quiescent.1 1 ⟨1, 1, 1⟩ [(1, 1, 1)]
    [Event.sample 1 1 1, Event.sleep] ⟨1, 1, 1⟩ (by decide)

/-- C10: the SAMPLING classification pass never dispatches Release — every
callback `_analyze_state` emits is among `on_right`, `on_left`,
`on_press`. -/
theorem C10_analyze_no_release (s : LineStateSet) (e : Event)
    (he : e ∈ _analyze_state s) :
    e = Event.right ∨ e = Event.left ∨ e = Event.press :=
  analyze_events s e he

/-- Witness for C10 at a concrete state and event. -/
theorem C10_witness :
    Event.right = Event.right ∨ Event.right = Event.left ∨
      Event.right = Event.press :=
  C10_analyze_no_release ⟨0, 1, 1⟩ Event.right (by decide)
